import Mathlib

/-!
Verification development for `flows/ssh_nodes.py`: a shallow embedding of the
`ssh_node` / `ssh_session` classes and their asyncio subprocess protocol
(`SSHReaderProtocol`), together with proofs of the specified properties.

The protocol callbacks (`connection_made`, `pipe_data_received`,
`pipe_connection_lost`, `process_exited`, `connection_lost`) and watchdog
timer firings are modelled as events delivered by the event loop; a session
run is a fold of the event step function over an event trace.
-/

namespace SshNodes

/-- The three watchdog kinds: connect (armed in `SSHReaderProtocol.__init__`),
io-inactivity (armed in `connection_made` and re-armed in
`pipe_data_received`), and command-duration (armed in `connection_made`). -/
inductive TKind
  | connect
  | io
  | cmd
deriving DecidableEq, Repr

/-- Events delivered by the event loop to one `SSHReaderProtocol` instance.
`timerFire i` is the expiry of the armed timer handle with identity `i`
(`wd_timer` / `io_timer`). -/
inductive PEvent
  | connectionMade
  | pipeData (fd : Nat) (data : List Char)
  | pipeLost (fd : Nat)
  | processExited
  | connectionLost
  | timerFire (i : Nat)
deriving DecidableEq, Repr

/-- Combined state of one `ssh_session` object and its current
`SSHReaderProtocol` instance.  Timer handles returned by
`loop.call_later` are modelled by fresh identities; `activeTimers` holds the
handles that are armed and have neither been cancelled nor fired. -/
structure Sess where
  opened : Bool
  closed : Bool
  connected : Bool
  results : List Char
  sshpipe : Bool
  CONNECT_TIMEOUT : Option Nat
  IO_TIMEOUT : Option Nat
  CMD_TIMEOUT : Option Nat
  control_master : Bool
  exited : Bool
  closed_stdout : Bool
  closed_stderr : Bool
  stdoutbuffer : List Char
  stderrbuffer : List Char
  stdoutLines : List (List Char)
  stderrLines : List (List Char)
  timeout_occurred : Bool
  activeTimers : List (Nat × TKind)
  nextTimerId : Nat
  watchdog : Option Nat
  iowatchdog : Option Nat
deriving DecidableEq, Repr

/-- `ssh_session.__init__`: the *closed* event is set, *opened* and
*connected* are cleared, the output buffer is fresh and no child-process
handle (`sshpipe`) exists yet. -/
def ssh_session_init (connectTimeout : Option Nat) (cm : Bool) : Sess :=
  { opened := false
    closed := true
    connected := false
    results := []
    sshpipe := false
    CONNECT_TIMEOUT := connectTimeout
    IO_TIMEOUT := none
    CMD_TIMEOUT := none
    control_master := cm
    exited := false
    closed_stdout := false
    closed_stderr := false
    stdoutbuffer := []
    stderrbuffer := []
    stdoutLines := []
    stderrLines := []
    timeout_occurred := false
    activeTimers := []
    nextTimerId := 0
    watchdog := none
    iowatchdog := none }

/-- Cancel a `call_later` handle: the handle, if any, is removed from the
armed set (cancelling an already fired or cancelled handle is a no-op). -/
def cancelTimer (h : Option Nat) (ts : List (Nat × TKind)) : List (Nat × TKind) :=
  match h with
  | none => ts
  | some i => ts.filter (fun p => p.1 ≠ i)

/-- The first lines of `ssh_session.post_cmd`: `self.opened.clear()` and the
recording of the per-command io / cmd timeouts. -/
def postSubmit (s : Sess) (ioT cmdT : Option Nat) : Sess :=
  { s with opened := false, IO_TIMEOUT := ioT, CMD_TIMEOUT := cmdT }

/-- `SSHReaderProtocol.__init__(session)`: fresh exit / stream-closure flags
and line buffers, the connect watchdog armed when a connect timeout is
configured, then `self._session.closed.clear()` and a cleared
`timeout_occurred` event.  The session's `results` buffer is *not* reset. -/
def protoInit (s : Sess) : Sess :=
  let s := { s with exited := false, closed_stdout := false, closed_stderr := false,
                    stdoutbuffer := [], stderrbuffer := [] }
  let s :=
    match s.CONNECT_TIMEOUT with
    | none => s
    | some _ =>
      { s with activeTimers := (s.nextTimerId, TKind.connect) :: s.activeTimers,
               watchdog := some s.nextTimerId,
               nextTimerId := s.nextTimerId + 1 }
  { s with closed := false, timeout_occurred := false }

/-- `SSHReaderProtocol.finished`: process exit and both stream closures
observed. -/
def finished (s : Sess) : Bool :=
  s.exited && s.closed_stdout && s.closed_stderr

/-- `SSHReaderProtocol.signal_exit`: returns unless `finished`, otherwise
sets the session's *closed* event. -/
def signal_exit (s : Sess) : Sess :=
  if finished s then { s with closed := true } else s

/-- Python `buffer.split` with a maxsplit of 1 at the newline separator, on a
buffer that contains a newline: the segment before the first newline and the
remainder after it; `none` when the buffer has no newline. -/
def splitFirst : List Char → Option (List Char × List Char)
  | [] => none
  | c :: cs =>
    if c = '\n' then some ([], cs)
    else
      match splitFirst cs with
      | none => none
      | some (l, r) => some (c :: l, r)

/-- The while-newline-in-buffer loop of `pipe_data_received`: repeatedly
split off the segment before the first newline.  Each iteration strictly
shortens the buffer, so `buf.length` steps of fuel always suffice. -/
def drainFuel : Nat → List Char → List (List Char) × List Char
  | 0, buf => ([], buf)
  | fuel + 1, buf =>
    match splitFirst buf with
    | none => ([], buf)
    | some (l, r) =>
      let p := drainFuel fuel r
      (l :: p.1, p.2)

/-- Run the newline-splitting loop on a buffer. -/
def drainLines (buf : List Char) : List (List Char) × List Char :=
  drainFuel buf.length buf

/-- One `pipe_data_received` delivery on a single stream buffer: append the
chunk, then emit every complete line, retaining the trailing partial
segment. -/
def feedStream (buf data : List Char) : List (List Char) × List Char :=
  drainLines (buf ++ data)

/-- `SSHReaderProtocol.connection_made`: cancel the connect watchdog (when
configured), record the child-process handle, set *connected*, then arm the
io and cmd watchdogs (when configured). -/
def connection_made (s : Sess) : Sess :=
  let s :=
    match s.CONNECT_TIMEOUT with
    | none => s
    | some _ => { s with activeTimers := cancelTimer s.watchdog s.activeTimers }
  let s := { s with sshpipe := true, connected := true }
  let s :=
    match s.IO_TIMEOUT with
    | none => s
    | some _ =>
      { s with activeTimers := (s.nextTimerId, TKind.io) :: s.activeTimers,
               iowatchdog := some s.nextTimerId,
               nextTimerId := s.nextTimerId + 1 }
  match s.CMD_TIMEOUT with
  | none => s
  | some _ =>
    { s with activeTimers := (s.nextTimerId, TKind.cmd) :: s.activeTimers,
             watchdog := some s.nextTimerId,
             nextTimerId := s.nextTimerId + 1 }

/-- `SSHReaderProtocol.pipe_data_received`: cancel the io watchdog (when
configured), extend the session's raw `results` buffer, feed the proper
stream's line assembler, then re-arm the io watchdog (when configured). -/
def pipe_data_received (s : Sess) (fd : Nat) (data : List Char) : Sess :=
  let s :=
    match s.IO_TIMEOUT with
    | none => s
    | some _ => { s with activeTimers := cancelTimer s.iowatchdog s.activeTimers }
  let s := { s with results := s.results ++ data }
  let s :=
    if fd = 1 then
      let p := feedStream s.stdoutbuffer data
      { s with stdoutLines := s.stdoutLines ++ p.1, stdoutbuffer := p.2 }
    else if fd = 2 then
      let p := feedStream s.stderrbuffer data
      { s with stderrLines := s.stderrLines ++ p.1, stderrbuffer := p.2 }
    else s
  match s.IO_TIMEOUT with
  | none => s
  | some _ =>
    { s with activeTimers := (s.nextTimerId, TKind.io) :: s.activeTimers,
             iowatchdog := some s.nextTimerId,
             nextTimerId := s.nextTimerId + 1 }

/-- `SSHReaderProtocol.pipe_connection_lost`: cancel the io watchdog (when
configured), mark the proper stream closed, then `signal_exit`. -/
def pipe_connection_lost (s : Sess) (fd : Nat) : Sess :=
  let s :=
    match s.IO_TIMEOUT with
    | none => s
    | some _ => { s with activeTimers := cancelTimer s.iowatchdog s.activeTimers }
  let s :=
    if fd = 1 then { s with closed_stdout := true }
    else if fd = 2 then { s with closed_stderr := true }
    else s
  signal_exit s

/-- `SSHReaderProtocol.process_exited`: cancel the cmd watchdog (when
configured), mark the process exited, then `signal_exit`. -/
def process_exited (s : Sess) : Sess :=
  let s :=
    match s.CMD_TIMEOUT with
    | none => s
    | some _ => { s with activeTimers := cancelTimer s.watchdog s.activeTimers }
  signal_exit { s with exited := true }

/-- `SSHReaderProtocol.connection_lost`: the session's *connected* event is
cleared. -/
def connection_lost (s : Sess) : Sess :=
  { s with connected := false }

/-- Expiry of the armed timer handle `i` (`wd_timer` / `io_timer`): the
single-shot handle is spent and `timeout_occurred` is set; the forced
child-process termination then drives the normal exit events. -/
def timer_fire (s : Sess) (i : Nat) : Sess :=
  if s.activeTimers.any (fun p => p.1 = i) then
    { s with activeTimers := s.activeTimers.filter (fun p => p.1 ≠ i),
             timeout_occurred := true }
  else s

/-- Dispatch one event-loop delivery to the protocol. -/
def stepEvent (s : Sess) : PEvent → Sess
  | PEvent.connectionMade => connection_made s
  | PEvent.pipeData fd data => pipe_data_received s fd data
  | PEvent.pipeLost fd => pipe_connection_lost s fd
  | PEvent.processExited => process_exited s
  | PEvent.connectionLost => connection_lost s
  | PEvent.timerFire i => timer_fire s i

/-- Deliver an event trace. -/
def runEvents (s : Sess) (t : List PEvent) : Sess :=
  t.foldl stepEvent s

/-- A full command run: `ssh_session.__init__`, the opening lines of
`post_cmd`, the `SSHReaderProtocol.__init__` performed by
`subprocess_exec`, then the delivered event trace. -/
def sessionRun (connectTimeout ioT cmdT : Option Nat) (cm : Bool)
    (t : List PEvent) : Sess :=
  runEvents (protoInit (postSubmit (ssh_session_init connectTimeout cm) ioT cmdT)) t

/-! ### Line assembler lemmas -/

/-- Re-join emitted lines with newline separators. -/
def joinNL : List (List Char) → List Char
  | [] => []
  | l :: ls => l ++ '\n' :: joinNL ls

lemma splitFirst_cons_ne (c : Char) (cs : List Char) (hc : c ≠ '\n') :
    splitFirst (c :: cs) =
      match splitFirst cs with
      | none => none
      | some (l, r) => some (c :: l, r) := by
  simp [splitFirst, hc]

lemma splitFirst_eq_none : ∀ buf : List Char, splitFirst buf = none ↔ '\n' ∉ buf := by
  intro buf
  induction buf with
  | nil => simp [splitFirst]
  | cons c cs ih =>
    by_cases hc : c = '\n'
    · subst hc
      simp [splitFirst]
    · rw [splitFirst_cons_ne c cs hc]
      cases h : splitFirst cs with
      | none =>
        have hmem : '\n' ∉ cs := (ih).mp h
        simp [List.mem_cons, hmem]
        exact fun hx => hc hx.symm
      | some p =>
        have hmem : '\n' ∈ cs := by
          by_contra hnot
          rw [(ih).mpr hnot] at h
          exact Option.noConfusion h
        simp [List.mem_cons, hmem]

lemma splitFirst_eq_some :
    ∀ (buf l r : List Char), splitFirst buf = some (l, r) →
      buf = l ++ '\n' :: r ∧ '\n' ∉ l := by
  intro buf
  induction buf with
  | nil => intro l r h; exact Option.noConfusion h
  | cons c cs ih =>
    intro l r h
    by_cases hc : c = '\n'
    · subst hc
      simp [splitFirst] at h
      obtain ⟨hl, hr⟩ := h
      subst hl; subst hr
      exact ⟨rfl, by simp⟩
    · rw [splitFirst_cons_ne c cs hc] at h
      cases hcs : splitFirst cs with
      | none => rw [hcs] at h; exact Option.noConfusion h
      | some p =>
        rw [hcs] at h
        obtain ⟨l2, r2⟩ := p
        simp at h
        obtain ⟨hl, hr⟩ := h
        obtain ⟨heq, hnl⟩ := ih l2 r2 hcs
        subst hl; subst hr; subst heq
        refine ⟨rfl, ?_⟩
        simp [List.mem_cons, hnl]
        exact fun hx => hc hx.symm

lemma drainFuel_spec :
    ∀ (fuel : Nat) (buf : List Char), buf.length ≤ fuel →
      joinNL (drainFuel fuel buf).1 ++ (drainFuel fuel buf).2 = buf ∧
      '\n' ∉ (drainFuel fuel buf).2 ∧
      ∀ l ∈ (drainFuel fuel buf).1, '\n' ∉ l := by
  intro fuel
  induction fuel with
  | zero =>
    intro buf hlen
    have hbuf : buf = [] := List.length_eq_zero.mp (Nat.le_zero.mp hlen)
    subst hbuf
    simp [drainFuel, joinNL]
  | succ n ih =>
    intro buf hlen
    cases hs : splitFirst buf with
    | none =>
      have h2 : drainFuel (n + 1) buf = ([], buf) := by simp [drainFuel, hs]
      rw [h2]
      exact ⟨by simp [joinNL], splitFirst_eq_none buf |>.mp hs, by simp⟩
    | some p =>
      obtain ⟨l, r⟩ := p
      obtain ⟨heq, hnl⟩ := splitFirst_eq_some buf l r hs
      have hrlen : r.length ≤ n := by
        subst heq
        simp [List.length_append] at hlen
        omega
      obtain ⟨hjoin, hrest, hlines⟩ := ih r hrlen
      have hstep : drainFuel (n + 1) buf =
          (l :: (drainFuel n r).1, (drainFuel n r).2) := by
        simp [drainFuel, hs]
      rw [hstep]
      refine ⟨?_, hrest, ?_⟩
      · simp only [joinNL, List.append_assoc, List.cons_append]
        rw [hjoin, heq]
      · intro x hx
        rcases List.mem_cons.mp hx with h1 | h2
        · subst h1; exact hnl
        · exact hlines x h2

lemma feedStream_spec (buf data : List Char) :
    joinNL (feedStream buf data).1 ++ (feedStream buf data).2 = buf ++ data ∧
    '\n' ∉ (feedStream buf data).2 ∧
    ∀ l ∈ (feedStream buf data).1, '\n' ∉ l :=
  drainFuel_spec (buf ++ data).length (buf ++ data) le_rfl

/-- C5: the line assembler buffers partial data and splits on line-feed:
feeding the chunk "ab" then the chunk "c", newline, "d" on one stream emits
no line after the first chunk and exactly the line "abc" after the second,
retaining "d" as the pending partial segment; in general the emitted lines
followed by the retained segment re-join (with newline separators) to the
buffered input, the retained segment holds no newline, and no emitted line
holds a newline. -/
theorem C5_line_assembler :
    feedStream [] ['a', 'b'] = ([], ['a', 'b']) ∧
    feedStream ['a', 'b'] ['c', '\n', 'd'] = ([['a', 'b', 'c']], ['d']) ∧
    ∀ buf data : List Char,
      joinNL (feedStream buf data).1 ++ (feedStream buf data).2 = buf ++ data ∧
      ((feedStream buf data).2.count '\n' = 0) ∧
      ((feedStream buf data).1.all (fun l => l.count '\n' == 0) = true) := by
  refine ⟨by decide, by decide, ?_⟩
  intro buf data
  obtain ⟨hjoin, hrest, hlines⟩ := feedStream_spec buf data
  refine ⟨hjoin, List.count_eq_zero.mpr hrest, ?_⟩
  rw [List.all_eq_true]
  intro l hl
  simpa [beq_iff_eq, List.count_eq_zero] using hlines l hl

/-! ### Completion-flag lemmas: the *closed* signal versus the three events -/

/-- The session invariant maintained by every protocol callback: the *closed*
event mirrors the conjunction of process-exit and both stream closures. -/
def doneFlags (s : Sess) : Prop :=
  s.closed = (s.exited && s.closed_stdout && s.closed_stderr)

@[simp] lemma signal_exit_exited (s : Sess) : (signal_exit s).exited = s.exited := by
  unfold signal_exit; split <;> rfl

@[simp] lemma signal_exit_closed_stdout (s : Sess) :
    (signal_exit s).closed_stdout = s.closed_stdout := by
  unfold signal_exit; split <;> rfl

@[simp] lemma signal_exit_closed_stderr (s : Sess) :
    (signal_exit s).closed_stderr = s.closed_stderr := by
  unfold signal_exit; split <;> rfl

@[simp] lemma signal_exit_connected (s : Sess) : (signal_exit s).connected = s.connected := by
  unfold signal_exit; split <;> rfl

@[simp] lemma signal_exit_closed (s : Sess) :
    (signal_exit s).closed = (s.closed || finished s) := by
  unfold signal_exit
  split
  · next h => simp [h]
  · next h => simp [Bool.not_eq_true] at h; simp [h]

lemma connection_made_exited (s : Sess) : (connection_made s).exited = s.exited := by
  cases hc : s.CONNECT_TIMEOUT <;> cases hio : s.IO_TIMEOUT <;> cases hcm : s.CMD_TIMEOUT <;>
    simp [connection_made, hc, hio, hcm]

lemma connection_made_closed_stdout (s : Sess) :
    (connection_made s).closed_stdout = s.closed_stdout := by
  cases hc : s.CONNECT_TIMEOUT <;> cases hio : s.IO_TIMEOUT <;> cases hcm : s.CMD_TIMEOUT <;>
    simp [connection_made, hc, hio, hcm]

lemma connection_made_closed_stderr (s : Sess) :
    (connection_made s).closed_stderr = s.closed_stderr := by
  cases hc : s.CONNECT_TIMEOUT <;> cases hio : s.IO_TIMEOUT <;> cases hcm : s.CMD_TIMEOUT <;>
    simp [connection_made, hc, hio, hcm]

lemma connection_made_closed (s : Sess) : (connection_made s).closed = s.closed := by
  cases hc : s.CONNECT_TIMEOUT <;> cases hio : s.IO_TIMEOUT <;> cases hcm : s.CMD_TIMEOUT <;>
    simp [connection_made, hc, hio, hcm]

lemma pipe_data_received_exited (s : Sess) (fd : Nat) (data : List Char) :
    (pipe_data_received s fd data).exited = s.exited := by
  cases hio : s.IO_TIMEOUT <;>
    by_cases h1 : fd = 1 <;> by_cases h2 : fd = 2 <;>
      simp [pipe_data_received, hio, h1, h2]

lemma pipe_data_received_closed_stdout (s : Sess) (fd : Nat) (data : List Char) :
    (pipe_data_received s fd data).closed_stdout = s.closed_stdout := by
  cases hio : s.IO_TIMEOUT <;>
    by_cases h1 : fd = 1 <;> by_cases h2 : fd = 2 <;>
      simp [pipe_data_received, hio, h1, h2]

lemma pipe_data_received_closed_stderr (s : Sess) (fd : Nat) (data : List Char) :
    (pipe_data_received s fd data).closed_stderr = s.closed_stderr := by
  cases hio : s.IO_TIMEOUT <;>
    by_cases h1 : fd = 1 <;> by_cases h2 : fd = 2 <;>
      simp [pipe_data_received, hio, h1, h2]

lemma pipe_data_received_closed (s : Sess) (fd : Nat) (data : List Char) :
    (pipe_data_received s fd data).closed = s.closed := by
  cases hio : s.IO_TIMEOUT <;>
    by_cases h1 : fd = 1 <;> by_cases h2 : fd = 2 <;>
      simp [pipe_data_received, hio, h1, h2]

lemma pipe_connection_lost_exited (s : Sess) (fd : Nat) :
    (pipe_connection_lost s fd).exited = s.exited := by
  cases hio : s.IO_TIMEOUT <;>
    by_cases h1 : fd = 1 <;> by_cases h2 : fd = 2 <;>
      simp [pipe_connection_lost, hio, h1, h2]

lemma pipe_connection_lost_closed_stdout (s : Sess) (fd : Nat) :
    (pipe_connection_lost s fd).closed_stdout = (s.closed_stdout || decide (fd = 1)) := by
  cases hio : s.IO_TIMEOUT <;>
    by_cases h1 : fd = 1 <;> by_cases h2 : fd = 2 <;>
      simp [pipe_connection_lost, hio, h1, h2]

lemma pipe_connection_lost_closed_stderr (s : Sess) (fd : Nat) :
    (pipe_connection_lost s fd).closed_stderr = (s.closed_stderr || decide (fd = 2)) := by
  cases hio : s.IO_TIMEOUT <;>
    by_cases h1 : fd = 1 <;> by_cases h2 : fd = 2 <;>
      simp [pipe_connection_lost, hio, h1, h2]

lemma process_exited_exited (s : Sess) : (process_exited s).exited = true := by
  cases hcm : s.CMD_TIMEOUT <;> simp [process_exited, hcm]

lemma process_exited_closed_stdout (s : Sess) :
    (process_exited s).closed_stdout = s.closed_stdout := by
  cases hcm : s.CMD_TIMEOUT <;> simp [process_exited, hcm]

lemma process_exited_closed_stderr (s : Sess) :
    (process_exited s).closed_stderr = s.closed_stderr := by
  cases hcm : s.CMD_TIMEOUT <;> simp [process_exited, hcm]

lemma timer_fire_exited (s : Sess) (i : Nat) : (timer_fire s i).exited = s.exited := by
  unfold timer_fire; split <;> rfl

lemma timer_fire_closed_stdout (s : Sess) (i : Nat) :
    (timer_fire s i).closed_stdout = s.closed_stdout := by
  unfold timer_fire; split <;> rfl

lemma timer_fire_closed_stderr (s : Sess) (i : Nat) :
    (timer_fire s i).closed_stderr = s.closed_stderr := by
  unfold timer_fire; split <;> rfl

lemma timer_fire_closed (s : Sess) (i : Nat) : (timer_fire s i).closed = s.closed := by
  unfold timer_fire; split <;> rfl

/-- Along any event trace the process-exit flag records exactly whether a
`processExited` delivery has occurred. -/
lemma runEvents_exited (t : List PEvent) : ∀ s : Sess,
    ((runEvents s t).exited = true ↔ (s.exited = true ∨ PEvent.processExited ∈ t)) := by
  induction t with
  | nil => intro s; simp [runEvents]
  | cons e t ih =>
    intro s
    have hfold : runEvents s (e :: t) = runEvents (stepEvent s e) t := rfl
    rw [hfold, ih (stepEvent s e)]
    have hstep : (stepEvent s e).exited = true ↔ (s.exited = true ∨ e = PEvent.processExited) := by
      cases e with
      | connectionMade => simp [stepEvent, connection_made_exited]
      | pipeData fd data => simp [stepEvent, pipe_data_received_exited]
      | pipeLost fd => simp [stepEvent, pipe_connection_lost_exited]
      | processExited => simp [stepEvent, process_exited_exited]
      | connectionLost => simp [stepEvent, connection_lost]
      | timerFire i => simp [stepEvent, timer_fire_exited]
    rw [hstep]
    simp only [List.mem_cons]
    rw [or_assoc]
    exact or_congr Iff.rfl (or_congr eq_comm Iff.rfl)

/-- Along any event trace the stdout-closure flag records exactly whether a
`pipeLost 1` delivery has occurred. -/
lemma runEvents_closed_stdout (t : List PEvent) : ∀ s : Sess,
    ((runEvents s t).closed_stdout = true ↔
      (s.closed_stdout = true ∨ PEvent.pipeLost 1 ∈ t)) := by
  induction t with
  | nil => intro s; simp [runEvents]
  | cons e t ih =>
    intro s
    have hfold : runEvents s (e :: t) = runEvents (stepEvent s e) t := rfl
    rw [hfold, ih (stepEvent s e)]
    have hstep : (stepEvent s e).closed_stdout = true ↔
        (s.closed_stdout = true ∨ e = PEvent.pipeLost 1) := by
      cases e with
      | connectionMade => simp [stepEvent, connection_made_closed_stdout]
      | pipeData fd data => simp [stepEvent, pipe_data_received_closed_stdout]
      | pipeLost fd =>
        rw [stepEvent, pipe_connection_lost_closed_stdout]
        by_cases h1 : fd = 1 <;> simp [h1]
      | processExited => simp [stepEvent, process_exited_closed_stdout]
      | connectionLost => simp [stepEvent, connection_lost]
      | timerFire i => simp [stepEvent, timer_fire_closed_stdout]
    rw [hstep]
    simp only [List.mem_cons]
    rw [or_assoc]
    exact or_congr Iff.rfl (or_congr eq_comm Iff.rfl)

/-- Along any event trace the stderr-closure flag records exactly whether a
`pipeLost 2` delivery has occurred. -/
lemma runEvents_closed_stderr (t : List PEvent) : ∀ s : Sess,
    ((runEvents s t).closed_stderr = true ↔
      (s.closed_stderr = true ∨ PEvent.pipeLost 2 ∈ t)) := by
  induction t with
  | nil => intro s; simp [runEvents]
  | cons e t ih =>
    intro s
    have hfold : runEvents s (e :: t) = runEvents (stepEvent s e) t := rfl
    rw [hfold, ih (stepEvent s e)]
    have hstep : (stepEvent s e).closed_stderr = true ↔
        (s.closed_stderr = true ∨ e = PEvent.pipeLost 2) := by
      cases e with
      | connectionMade => simp [stepEvent, connection_made_closed_stderr]
      | pipeData fd data => simp [stepEvent, pipe_data_received_closed_stderr]
      | pipeLost fd =>
        rw [stepEvent, pipe_connection_lost_closed_stderr]
        by_cases h2 : fd = 2 <;> simp [h2]
      | processExited => simp [stepEvent, process_exited_closed_stderr]
      | connectionLost => simp [stepEvent, connection_lost]
      | timerFire i => simp [stepEvent, timer_fire_closed_stderr]
    rw [hstep]
    simp only [List.mem_cons]
    rw [or_assoc]
    exact or_congr Iff.rfl (or_congr eq_comm Iff.rfl)

/-- `signal_exit` establishes the done invariant whenever *closed* being set
already implies that the three completion flags are set. -/
lemma signal_exit_doneFlags (s : Sess) (hmono : s.closed = true → finished s = true) :
    doneFlags (signal_exit s) := by
  unfold doneFlags
  rw [signal_exit_closed, signal_exit_exited, signal_exit_closed_stdout,
    signal_exit_closed_stderr]
  show (s.closed || finished s) = finished s
  cases hc : s.closed
  · simp
  · simp [hmono hc]

/-- A `signal_exit` applied after monotone flag updates that keep *closed*
untouched preserves the done invariant. -/
lemma doneFlags_mono_signal (s s2 : Sess) (hdf : doneFlags s)
    (hcl : s2.closed = s.closed)
    (hex : s.exited = true → s2.exited = true)
    (hso : s.closed_stdout = true → s2.closed_stdout = true)
    (hse : s.closed_stderr = true → s2.closed_stderr = true) :
    doneFlags (signal_exit s2) := by
  apply signal_exit_doneFlags
  intro hc
  rw [hcl, hdf] at hc
  simp only [Bool.and_eq_true] at hc
  unfold finished
  simp only [Bool.and_eq_true]
  exact ⟨⟨hex hc.1.1, hso hc.1.2⟩, hse hc.2⟩

/-- Every single callback preserves the invariant that *closed* mirrors the
conjunction of the three completion flags. -/
lemma doneFlags_step (s : Sess) (e : PEvent) (h : doneFlags s) :
    doneFlags (stepEvent s e) := by
  cases e with
  | connectionMade =>
    unfold doneFlags at h ⊢
    rw [stepEvent, connection_made_closed, connection_made_exited,
      connection_made_closed_stdout, connection_made_closed_stderr]
    exact h
  | pipeData fd data =>
    unfold doneFlags at h ⊢
    rw [stepEvent, pipe_data_received_closed, pipe_data_received_exited,
      pipe_data_received_closed_stdout, pipe_data_received_closed_stderr]
    exact h
  | pipeLost fd =>
    show doneFlags (pipe_connection_lost s fd)
    unfold pipe_connection_lost
    cases hio : s.IO_TIMEOUT with
    | none =>
      by_cases h1 : fd = 1
      · simp only [hio, h1]
        exact doneFlags_mono_signal s _ h rfl (fun a => a) (fun _ => rfl) (fun a => a)
      · by_cases h2 : fd = 2
        · simp only [hio, h1, h2, if_neg, if_pos, reduceIte]
          exact doneFlags_mono_signal s _ h rfl (fun a => a) (fun a => a) (fun _ => rfl)
        · simp only [hio, h1, h2, reduceIte]
          exact doneFlags_mono_signal s _ h rfl (fun a => a) (fun a => a) (fun a => a)
    | some v =>
      by_cases h1 : fd = 1
      · simp only [hio, h1]
        exact doneFlags_mono_signal s _ h rfl (fun a => a) (fun _ => rfl) (fun a => a)
      · by_cases h2 : fd = 2
        · simp only [hio, h1, h2, reduceIte]
          exact doneFlags_mono_signal s _ h rfl (fun a => a) (fun a => a) (fun _ => rfl)
        · simp only [hio, h1, h2, reduceIte]
          exact doneFlags_mono_signal s _ h rfl (fun a => a) (fun a => a) (fun a => a)
  | processExited =>
    show doneFlags (process_exited s)
    unfold process_exited
    cases hcm : s.CMD_TIMEOUT with
    | none =>
      simp only [hcm]
      exact doneFlags_mono_signal s _ h rfl (fun _ => rfl) (fun a => a) (fun a => a)
    | some v =>
      simp only [hcm]
      exact doneFlags_mono_signal s _ h rfl (fun _ => rfl) (fun a => a) (fun a => a)
  | connectionLost =>
    unfold doneFlags at h ⊢
    rw [stepEvent]
    exact h
  | timerFire i =>
    unfold doneFlags at h ⊢
    rw [stepEvent, timer_fire_closed, timer_fire_exited, timer_fire_closed_stdout,
      timer_fire_closed_stderr]
    exact h

lemma doneFlags_runEvents (t : List PEvent) : ∀ s : Sess, doneFlags s →
    doneFlags (runEvents s t) := by
  induction t with
  | nil => intro s h; exact h
  | cons e t ih =>
    intro s h
    exact ih (stepEvent s e) (doneFlags_step s e h)

/-- State facts at the point `subprocess_exec` has installed the fresh
protocol: all completion flags and the *closed* event are cleared. -/
lemma protoStart_facts (ct iot cmt : Option Nat) (cm : Bool) :
    (protoInit (postSubmit (ssh_session_init ct cm) iot cmt)).exited = false ∧
    (protoInit (postSubmit (ssh_session_init ct cm) iot cmt)).closed_stdout = false ∧
    (protoInit (postSubmit (ssh_session_init ct cm) iot cmt)).closed_stderr = false ∧
    (protoInit (postSubmit (ssh_session_init ct cm) iot cmt)).closed = false := by
  cases ct <;> simp [protoInit, postSubmit, ssh_session_init]

lemma sessionRun_closed_iff (ct iot cmt : Option Nat) (cm : Bool) (t : List PEvent) :
    (sessionRun ct iot cmt cm t).closed = true ↔
      (PEvent.processExited ∈ t ∧ PEvent.pipeLost 1 ∈ t ∧ PEvent.pipeLost 2 ∈ t) := by
  obtain ⟨hex, hso, hse, hcl⟩ := protoStart_facts ct iot cmt cm
  have hdf : doneFlags (protoInit (postSubmit (ssh_session_init ct cm) iot cmt)) := by
    unfold doneFlags
    rw [hex, hso, hse, hcl]
    rfl
  have hfin := doneFlags_runEvents t _ hdf
  unfold doneFlags at hfin
  unfold sessionRun
  rw [hfin]
  simp only [Bool.and_eq_true]
  rw [runEvents_exited t _, runEvents_closed_stdout t _, runEvents_closed_stderr t _,
    hex, hso, hse]
  simp [and_assoc]

/-- C1: for every session the *closed* signal is set if and only if
process-exit, stdout-closure and stderr-closure have all been observed on
that session's protocol, in any order; since this holds of every prefix of
the delivered trace, no proper subset of the three events sets *closed*, and
it becomes set exactly at the delivery of the third. -/
theorem C1_closed_iff_all_three (ct iot cmt : Option Nat) (cm : Bool) (t : List PEvent) :
    (sessionRun ct iot cmt cm t).closed = true ↔
      (PEvent.processExited ∈ t ∧ PEvent.pipeLost 1 ∈ t ∧ PEvent.pipeLost 2 ∈ t) :=
  sessionRun_closed_iff ct iot cmt cm t

/-- C8: while the command is still running (the three completion events have
not all been observed) *closed* and *connected* are never simultaneously
true; *closed* is monotone over any further deliveries once set; and it is
cleared (only) by the fresh protocol installed when the session object is
reused for a new `post_cmd` submission. -/
theorem C8_closed_connected_invariant (ct iot cmt : Option Nat) (cm : Bool)
    (t t2 : List PEvent) :
    (¬(PEvent.processExited ∈ t ∧ PEvent.pipeLost 1 ∈ t ∧ PEvent.pipeLost 2 ∈ t) →
      ¬((sessionRun ct iot cmt cm t).closed = true ∧
        (sessionRun ct iot cmt cm t).connected = true)) ∧
    ((sessionRun ct iot cmt cm t).closed = true →
      (sessionRun ct iot cmt cm (t ++ t2)).closed = true) ∧
    (∀ s : Sess, (protoInit s).closed = false) := by
  refine ⟨?_, ?_, fun s => rfl⟩
  · intro hno hcc
    exact hno ((sessionRun_closed_iff ct iot cmt cm t).mp hcc.1)
  · intro hc
    obtain ⟨h1, h2, h3⟩ := (sessionRun_closed_iff ct iot cmt cm t).mp hc
    exact (sessionRun_closed_iff ct iot cmt cm (t ++ t2)).mpr
      ⟨List.mem_append_left t2 h1, List.mem_append_left t2 h2, List.mem_append_left t2 h3⟩

/-- Witness for C8 at a concrete configuration and traces. -/
theorem C8_closed_connected_invariant_witness :
    ¬((sessionRun (some 1) (some 1) (some 1) false [PEvent.connectionMade]).closed = true ∧
      (sessionRun (some 1) (some 1) (some 1) false [PEvent.connectionMade]).connected = true) ∧
    (sessionRun (some 1) (some 1) (some 1) false
      ([PEvent.connectionMade, PEvent.pipeLost 1, PEvent.pipeLost 2,
        PEvent.processExited] ++ [PEvent.connectionLost])).closed = true :=
  ⟨(C8_closed_connected_invariant (some 1) (some 1) (some 1) false
      [PEvent.connectionMade] []).1 (by decide),
   (C8_closed_connected_invariant (some 1) (some 1) (some 1) false
      [PEvent.connectionMade, PEvent.pipeLost 1, PEvent.pipeLost 2, PEvent.processExited]
      [PEvent.connectionLost]).2.1 (by decide)⟩

/-! ### Watchdog timers: at most one active instance per kind -/

/-- Trace validity for one spawned transport: the event loop delivers
`connection_made` at most once, before any pipe-data, pipe-closure,
process-exit or transport-closure callback; timer expirations may occur at
any point.  The flag records whether `connection_made` has been seen. -/
def validFrom : Bool → List PEvent → Bool
  | _, [] => true
  | seen, e :: rest =>
    match e with
    | PEvent.connectionMade => !seen && validFrom true rest
    | PEvent.timerFire _ => validFrom seen rest
    | _ => seen && validFrom seen rest

/-- A fresh protocol's event trace is valid. -/
def validTrace (t : List PEvent) : Bool := validFrom false t

/-- Well-formedness of the armed-timer set: armed identities are below the
fresh counter and pairwise distinct, every armed connect or cmd handle is
the one stored in the `watchdog` attribute, and every armed io handle is the
one stored in the `iowatchdog` attribute. -/
structure TimerOk (act : List (Nat × TKind)) (nid : Nat)
    (wd iowd : Option Nat) : Prop where
  bound : ∀ p ∈ act, p.1 < nid
  pair : List.Pairwise (fun p q => p.1 ≠ q.1) act
  wdcov : ∀ p ∈ act, (p.2 = TKind.connect ∨ p.2 = TKind.cmd) → wd = some p.1
  iocov : ∀ p ∈ act, p.2 = TKind.io → iowd = some p.1

/-- The timer invariant of a session state. -/
abbrev TimerInv (s : Sess) : Prop :=
  TimerOk s.activeTimers s.nextTimerId s.watchdog s.iowatchdog

/-- Invariant before `connection_made`: additionally only connect timers are
armed, and none at all when no connect timeout is configured. -/
def PreInv (s : Sess) : Prop :=
  TimerInv s ∧ (∀ p ∈ s.activeTimers, p.2 = TKind.connect) ∧
    (s.CONNECT_TIMEOUT = none → s.activeTimers = [])

lemma mem_of_mem_cancelTimer {p : Nat × TKind} {ho : Option Nat}
    {act : List (Nat × TKind)} (hp : p ∈ cancelTimer ho act) : p ∈ act := by
  cases ho with
  | none => exact hp
  | some i => exact (List.mem_filter.mp hp).1

lemma timerOk_filter {act nid wd iowd} (h : TimerOk act nid wd iowd)
    (pred : Nat × TKind → Bool) : TimerOk (act.filter pred) nid wd iowd := by
  refine ⟨?_, ?_, ?_, ?_⟩
  · intro p hp; exact h.bound p (List.mem_filter.mp hp).1
  · exact List.Pairwise.sublist (List.filter_sublist act) h.pair
  · intro p hp hk; exact h.wdcov p (List.mem_filter.mp hp).1 hk
  · intro p hp hk; exact h.iocov p (List.mem_filter.mp hp).1 hk

lemma timerOk_cancel {act nid wd iowd} (h : TimerOk act nid wd iowd)
    (ho : Option Nat) : TimerOk (cancelTimer ho act) nid wd iowd := by
  cases ho with
  | none => exact h
  | some i => exact timerOk_filter h _

/-- After cancelling the handle stored in `iowatchdog` no io timer remains
armed. -/
lemma cancel_no_io {act nid wd iowd} (h : TimerOk act nid wd iowd) :
    ∀ p ∈ cancelTimer iowd act, p.2 ≠ TKind.io := by
  intro p hp hk
  cases hio : iowd with
  | none =>
    rw [hio] at hp
    exact Option.noConfusion (hio ▸ h.iocov p hp hk)
  | some i =>
    rw [hio] at hp
    have hmem := List.mem_filter.mp hp
    have hcov := h.iocov p hmem.1 hk
    rw [hio] at hcov
    have hpi : p.1 = i := Option.some.inj hcov.symm
    have hne : p.1 ≠ i := by simpa using hmem.2
    exact hne hpi

/-- After cancelling the handle stored in `watchdog` no connect and no cmd
timer remains armed. -/
lemma cancel_no_wd {act nid wd iowd} (h : TimerOk act nid wd iowd) :
    ∀ p ∈ cancelTimer wd act, p.2 ≠ TKind.connect ∧ p.2 ≠ TKind.cmd := by
  intro p hp
  constructor <;> intro hk
  · cases hwd : wd with
    | none =>
      rw [hwd] at hp
      exact Option.noConfusion (hwd ▸ h.wdcov p hp (Or.inl hk))
    | some i =>
      rw [hwd] at hp
      have hmem := List.mem_filter.mp hp
      have hcov := h.wdcov p hmem.1 (Or.inl hk)
      rw [hwd] at hcov
      have hne : p.1 ≠ i := by simpa using hmem.2
      exact hne (Option.some.inj hcov.symm)
  · cases hwd : wd with
    | none =>
      rw [hwd] at hp
      exact Option.noConfusion (hwd ▸ h.wdcov p hp (Or.inr hk))
    | some i =>
      rw [hwd] at hp
      have hmem := List.mem_filter.mp hp
      have hcov := h.wdcov p hmem.1 (Or.inr hk)
      rw [hwd] at hcov
      have hne : p.1 ≠ i := by simpa using hmem.2
      exact hne (Option.some.inj hcov.symm)

/-- Arming a fresh io timer, with no io timer currently armed. -/
lemma timerOk_arm_io {act nid wd iowd} (h : TimerOk act nid wd iowd)
    (hno : ∀ p ∈ act, p.2 ≠ TKind.io) :
    TimerOk ((nid, TKind.io) :: act) (nid + 1) wd (some nid) := by
  refine ⟨?_, ?_, ?_, ?_⟩
  · intro p hp
    rcases List.mem_cons.mp hp with h1 | h2
    · subst h1; exact Nat.lt_succ_self nid
    · exact Nat.lt_succ_of_lt (h.bound p h2)
  · refine List.pairwise_cons.mpr ⟨?_, h.pair⟩
    intro q hq
    have hb := h.bound q hq
    show nid ≠ q.1
    omega
  · intro p hp hk
    rcases List.mem_cons.mp hp with h1 | h2
    · subst h1; rcases hk with hk | hk <;> cases hk
    · exact h.wdcov p h2 hk
  · intro p hp hk
    rcases List.mem_cons.mp hp with h1 | h2
    · subst h1; rfl
    · exact absurd hk (hno p h2)

/-- Arming a fresh cmd timer, with no connect and no cmd timer currently
armed. -/
lemma timerOk_arm_cmd {act nid wd iowd} (h : TimerOk act nid wd iowd)
    (hno : ∀ p ∈ act, p.2 ≠ TKind.connect ∧ p.2 ≠ TKind.cmd) :
    TimerOk ((nid, TKind.cmd) :: act) (nid + 1) (some nid) iowd := by
  refine ⟨?_, ?_, ?_, ?_⟩
  · intro p hp
    rcases List.mem_cons.mp hp with h1 | h2
    · subst h1; exact Nat.lt_succ_self nid
    · exact Nat.lt_succ_of_lt (h.bound p h2)
  · refine List.pairwise_cons.mpr ⟨?_, h.pair⟩
    intro q hq
    have hb := h.bound q hq
    show nid ≠ q.1
    omega
  · intro p hp hk
    rcases List.mem_cons.mp hp with h1 | h2
    · subst h1; rfl
    · rcases hk with hk | hk
      · exact absurd hk (hno p h2).1
      · exact absurd hk (hno p h2).2
  · intro p hp hk
    rcases List.mem_cons.mp hp with h1 | h2
    · subst h1; cases hk
    · exact h.iocov p h2 hk

/-- Arming a fresh connect timer (protocol construction), with no connect
and no cmd timer currently armed. -/
lemma timerOk_arm_connect {act nid wd iowd} (h : TimerOk act nid wd iowd)
    (hno : ∀ p ∈ act, p.2 ≠ TKind.connect ∧ p.2 ≠ TKind.cmd) :
    TimerOk ((nid, TKind.connect) :: act) (nid + 1) (some nid) iowd := by
  refine ⟨?_, ?_, ?_, ?_⟩
  · intro p hp
    rcases List.mem_cons.mp hp with h1 | h2
    · subst h1; exact Nat.lt_succ_self nid
    · exact Nat.lt_succ_of_lt (h.bound p h2)
  · refine List.pairwise_cons.mpr ⟨?_, h.pair⟩
    intro q hq
    have hb := h.bound q hq
    show nid ≠ q.1
    omega
  · intro p hp hk
    rcases List.mem_cons.mp hp with h1 | h2
    · subst h1; rfl
    · rcases hk with hk | hk
      · exact absurd hk (hno p h2).1
      · exact absurd hk (hno p h2).2
  · intro p hp hk
    rcases List.mem_cons.mp hp with h1 | h2
    · subst h1; cases hk
    · exact h.iocov p h2 hk

lemma timerInv_signal_exit (s : Sess) (h : TimerInv s) : TimerInv (signal_exit s) := by
  unfold signal_exit
  split
  · exact h
  · exact h

lemma timerInv_connection_made (s : Sess) (h : PreInv s) :
    TimerInv (connection_made s) := by
  obtain ⟨hti, hconn, hnone⟩ := h
  cases hc : s.CONNECT_TIMEOUT with
  | none =>
    have hempty : s.activeTimers = [] := hnone hc
    have hvacio : ∀ p ∈ s.activeTimers, p.2 ≠ TKind.io := by
      intro p hp; rw [hempty] at hp; cases hp
    have hvacwd : ∀ p ∈ s.activeTimers, p.2 ≠ TKind.connect ∧ p.2 ≠ TKind.cmd := by
      intro p hp; rw [hempty] at hp; cases hp
    cases hio : s.IO_TIMEOUT with
    | none =>
      cases hcm : s.CMD_TIMEOUT with
      | none =>
        simp only [connection_made, hc, hio, hcm]
        exact hti
      | some v =>
        simp only [connection_made, hc, hio, hcm]
        exact timerOk_arm_cmd hti hvacwd
    | some w =>
      cases hcm : s.CMD_TIMEOUT with
      | none =>
        simp only [connection_made, hc, hio, hcm]
        exact timerOk_arm_io hti hvacio
      | some v =>
        simp only [connection_made, hc, hio, hcm]
        refine timerOk_arm_cmd (timerOk_arm_io hti hvacio) ?_
        intro p hp
        rcases List.mem_cons.mp hp with h1 | h2
        · subst h1; exact ⟨fun hk => TKind.noConfusion hk, fun hk => TKind.noConfusion hk⟩
        · exact hvacwd p h2
  | some c =>
    have h0 : TimerOk (cancelTimer s.watchdog s.activeTimers) s.nextTimerId
        s.watchdog s.iowatchdog := timerOk_cancel hti s.watchdog
    have hnoio0 : ∀ p ∈ cancelTimer s.watchdog s.activeTimers, p.2 ≠ TKind.io := by
      intro p hp hk
      have := hconn p (mem_of_mem_cancelTimer hp)
      rw [this] at hk
      exact TKind.noConfusion hk
    have hnowd0 := cancel_no_wd hti
    cases hio : s.IO_TIMEOUT with
    | none =>
      cases hcm : s.CMD_TIMEOUT with
      | none =>
        simp only [connection_made, hc, hio, hcm]
        exact h0
      | some v =>
        simp only [connection_made, hc, hio, hcm]
        exact timerOk_arm_cmd h0 hnowd0
    | some w =>
      cases hcm : s.CMD_TIMEOUT with
      | none =>
        simp only [connection_made, hc, hio, hcm]
        exact timerOk_arm_io h0 hnoio0
      | some v =>
        simp only [connection_made, hc, hio, hcm]
        refine timerOk_arm_cmd (timerOk_arm_io h0 hnoio0) ?_
        intro p hp
        rcases List.mem_cons.mp hp with h1 | h2
        · subst h1; exact ⟨fun hk => TKind.noConfusion hk, fun hk => TKind.noConfusion hk⟩
        · exact hnowd0 p h2

lemma timerInv_pipe_data (s : Sess) (fd : Nat) (data : List Char) (h : TimerInv s) :
    TimerInv (pipe_data_received s fd data) := by
  cases hio : s.IO_TIMEOUT with
  | none =>
    by_cases h1 : fd = 1 <;> by_cases h2 : fd = 2 <;>
      simp only [pipe_data_received, hio, h1, h2, if_true, if_false, reduceIte] <;>
        exact h
  | some w =>
    by_cases h1 : fd = 1 <;> by_cases h2 : fd = 2 <;>
      simp only [pipe_data_received, hio, h1, h2, if_true, if_false, reduceIte] <;>
        exact timerOk_arm_io (timerOk_cancel h s.iowatchdog) (cancel_no_io h)

lemma timerInv_pipe_lost (s : Sess) (fd : Nat) (h : TimerInv s) :
    TimerInv (pipe_connection_lost s fd) := by
  cases hio : s.IO_TIMEOUT with
  | none =>
    by_cases h1 : fd = 1 <;> by_cases h2 : fd = 2 <;>
      simp only [pipe_connection_lost, hio, h1, h2, if_true, if_false, reduceIte] <;>
        exact timerInv_signal_exit _ h
  | some w =>
    by_cases h1 : fd = 1 <;> by_cases h2 : fd = 2 <;>
      simp only [pipe_connection_lost, hio, h1, h2, if_true, if_false, reduceIte] <;>
        exact timerInv_signal_exit _ (timerOk_cancel h s.iowatchdog)

lemma timerInv_process_exited (s : Sess) (h : TimerInv s) :
    TimerInv (process_exited s) := by
  cases hcm : s.CMD_TIMEOUT with
  | none =>
    simp only [process_exited, hcm]
    exact timerInv_signal_exit _ h
  | some v =>
    simp only [process_exited, hcm]
    exact timerInv_signal_exit _ (timerOk_cancel h s.watchdog)

lemma timerInv_timer_fire (s : Sess) (i : Nat) (h : TimerInv s) :
    TimerInv (timer_fire s i) := by
  unfold timer_fire
  split
  · exact timerOk_filter h _
  · exact h

lemma preInv_timer_fire (s : Sess) (i : Nat) (h : PreInv s) :
    PreInv (timer_fire s i) := by
  unfold timer_fire
  split
  · refine ⟨timerOk_filter h.1 _, ?_, ?_⟩
    · intro p hp
      exact h.2.1 p (List.mem_filter.mp hp).1
    · intro hcn
      rw [h.2.2 hcn]
      rfl
  · exact h

lemma preInv_start (ct iot cmt : Option Nat) (cm : Bool) :
    PreInv (protoInit (postSubmit (ssh_session_init ct cm) iot cmt)) := by
  cases ct with
  | none =>
    refine ⟨⟨?_, ?_, ?_, ?_⟩, ?_, ?_⟩ <;>
      simp [protoInit, postSubmit, ssh_session_init, PreInv]
  | some c =>
    refine ⟨⟨?_, ?_, ?_, ?_⟩, ?_, ?_⟩ <;>
      simp [protoInit, postSubmit, ssh_session_init, PreInv]

lemma runEvents_timerInv_post : ∀ (t : List PEvent) (s : Sess),
    validFrom true t = true → TimerInv s → TimerInv (runEvents s t) := by
  intro t
  induction t with
  | nil => intro s _ h; exact h
  | cons e t ih =>
    intro s hv h
    have hfold : runEvents s (e :: t) = runEvents (stepEvent s e) t := rfl
    rw [hfold]
    cases e with
    | connectionMade => simp [validFrom] at hv
    | pipeData fd data =>
      exact ih _ (by simpa [validFrom] using hv) (timerInv_pipe_data s fd data h)
    | pipeLost fd =>
      exact ih _ (by simpa [validFrom] using hv) (timerInv_pipe_lost s fd h)
    | processExited =>
      exact ih _ (by simpa [validFrom] using hv) (timerInv_process_exited s h)
    | connectionLost =>
      exact ih _ (by simpa [validFrom] using hv) h
    | timerFire i =>
      exact ih _ (by simpa [validFrom] using hv) (timerInv_timer_fire s i h)

lemma runEvents_timerInv_pre : ∀ (t : List PEvent) (s : Sess),
    validFrom false t = true → PreInv s → TimerInv (runEvents s t) := by
  intro t
  induction t with
  | nil => intro s _ h; exact h.1
  | cons e t ih =>
    intro s hv h
    have hfold : runEvents s (e :: t) = runEvents (stepEvent s e) t := rfl
    rw [hfold]
    cases e with
    | connectionMade =>
      exact runEvents_timerInv_post t _ (by simpa [validFrom] using hv)
        (timerInv_connection_made s h)
    | pipeData fd data => simp [validFrom] at hv
    | pipeLost fd => simp [validFrom] at hv
    | processExited => simp [validFrom] at hv
    | connectionLost => simp [validFrom] at hv
    | timerFire i =>
      exact ih _ (by simpa [validFrom] using hv) (preInv_timer_fire s i h)

/-- Number of armed, not yet cancelled or fired, timers of a kind. -/
def activeCount (s : Sess) (k : TKind) : Nat :=
  s.activeTimers.countP (fun p => p.2 == k)

lemma countP_le_one_of_key (l : List (Nat × TKind)) (P : Nat × TKind → Bool) (j : Nat)
    (hpw : List.Pairwise (fun p q => p.1 ≠ q.1) l)
    (hcov : ∀ p ∈ l, P p = true → p.1 = j) :
    l.countP P ≤ 1 := by
  induction l with
  | nil => simp
  | cons p l ih =>
    obtain ⟨hp, hl⟩ := List.pairwise_cons.mp hpw
    rw [List.countP_cons]
    by_cases hP : P p = true
    · have hzero : l.countP P = 0 := by
        rw [List.countP_eq_zero]
        intro q hq hPq
        exact hp q hq
          ((hcov p (List.mem_cons_self p l) hP).trans
            (hcov q (List.mem_cons_of_mem p hq) hPq).symm)
      rw [hzero, hP]
      simp
    · have hP2 : P p = false := by
        cases hPb : P p
        · rfl
        · exact absurd hPb hP
      rw [hP2]
      simpa using ih hl (fun q hq hPq => hcov q (List.mem_cons_of_mem p hq) hPq)

lemma timerInv_activeCount (s : Sess) (h : TimerInv s) (k : TKind) :
    activeCount s k ≤ 1 := by
  cases k with
  | io =>
    cases hio : s.iowatchdog with
    | none =>
      have hzero : s.activeTimers.countP (fun p => p.2 == TKind.io) = 0 := by
        rw [List.countP_eq_zero]
        intro p hp hP
        have hcov := h.iocov p hp (by simpa using hP)
        rw [hio] at hcov
        exact Option.noConfusion hcov
      unfold activeCount
      rw [hzero]
      omega
    | some j =>
      refine countP_le_one_of_key _ _ j h.pair ?_
      intro p hp hP
      have hcov := h.iocov p hp (by simpa using hP)
      rw [hio] at hcov
      exact Option.some.inj hcov.symm
  | connect =>
    cases hw : s.watchdog with
    | none =>
      have hzero : s.activeTimers.countP (fun p => p.2 == TKind.connect) = 0 := by
        rw [List.countP_eq_zero]
        intro p hp hP
        have hcov := h.wdcov p hp (Or.inl (by simpa using hP))
        rw [hw] at hcov
        exact Option.noConfusion hcov
      unfold activeCount
      rw [hzero]
      omega
    | some j =>
      refine countP_le_one_of_key _ _ j h.pair ?_
      intro p hp hP
      have hcov := h.wdcov p hp (Or.inl (by simpa using hP))
      rw [hw] at hcov
      exact Option.some.inj hcov.symm
  | cmd =>
    cases hw : s.watchdog with
    | none =>
      have hzero : s.activeTimers.countP (fun p => p.2 == TKind.cmd) = 0 := by
        rw [List.countP_eq_zero]
        intro p hp hP
        have hcov := h.wdcov p hp (Or.inr (by simpa using hP))
        rw [hw] at hcov
        exact Option.noConfusion hcov
      unfold activeCount
      rw [hzero]
      omega
    | some j =>
      refine countP_le_one_of_key _ _ j h.pair ?_
      intro p hp hP
      have hcov := h.wdcov p hp (Or.inr (by simpa using hP))
      rw [hw] at hcov
      exact Option.some.inj hcov.symm

/-- C3: along any valid delivery trace, at most one watchdog timer of each
kind (connect, io-inactivity, command-duration) is armed at any instant:
every re-arming of a kind first cancels the previous instance of that kind,
for any number of re-armings over the session's life. -/
theorem C3_watchdog_single_instance (ct iot cmt : Option Nat) (cm : Bool)
    (t : List PEvent) (hvalid : validTrace t = true) (k : TKind) :
    activeCount (sessionRun ct iot cmt cm t) k ≤ 1 :=
  timerInv_activeCount _
    (runEvents_timerInv_pre t _ hvalid (preInv_start ct iot cmt cm)) k

/-- Witness for C3 at a concrete configuration and trace with repeated io
re-arming. -/
theorem C3_watchdog_single_instance_witness :
    validTrace [PEvent.connectionMade, PEvent.pipeData 1 ['x'], PEvent.pipeData 1 ['y'],
      PEvent.pipeData 2 ['z'], PEvent.pipeLost 1, PEvent.processExited] = true ∧
    activeCount (sessionRun (some 1) (some 2) (some 3) false
      [PEvent.connectionMade, PEvent.pipeData 1 ['x'], PEvent.pipeData 1 ['y'],
        PEvent.pipeData 2 ['z'], PEvent.pipeLost 1, PEvent.processExited]) TKind.io ≤ 1 :=
  ⟨by decide,
   C3_watchdog_single_instance (some 1) (some 2) (some 3) false
     [PEvent.connectionMade, PEvent.pipeData 1 ['x'], PEvent.pipeData 1 ['y'],
       PEvent.pipeData 2 ['z'], PEvent.pipeLost 1, PEvent.processExited]
     (by decide) TKind.io⟩

/-! ### post_cmd submission and return behaviour -/

inductive SAction
  | spawn
  | awaitClosed
deriving DecidableEq, Repr

/-- `ssh_session.post_cmd`: clear *opened*, record the io/cmd timeouts,
build the command line and spawn the child (installing a fresh protocol);
then, for non-console sessions only, await the *closed* signal and return
the accumulated raw `results` buffer; console (control-master) sessions
fall off the end of the coroutine, returning `None` from submission without
ever awaiting closure.  (The `self.connected.wait()` on the submission path
creates a coroutine that is never awaited, so no wait on *connected* is
recorded.)  The event-trace argument stands for the deliveries processed by
the event loop up to the moment the awaited *closed* signal resumes the
coroutine. -/
def post_cmd (s : Sess) (ioT cmdT : Option Nat) (t : List PEvent) :
    List SAction × Option (List Char) :=
  let s2 := postSubmit s ioT cmdT
  let sEnd := runEvents (protoInit s2) t
  if !s2.control_master then
    ([SAction.spawn, SAction.awaitClosed], some sEnd.results)
  else
    ([SAction.spawn], none)

/-- C4: every non-console `post_cmd` awaits the *closed* signal before
returning and returns the session's accumulated raw output buffer; every
console (control-master) `post_cmd` returns from submission without ever
awaiting the *closed* signal. -/
theorem C4_post_cmd_await_closed (s : Sess) (ioT cmdT : Option Nat) (t : List PEvent) :
    (s.control_master = false →
      (post_cmd s ioT cmdT t).1 = [SAction.spawn, SAction.awaitClosed] ∧
      (post_cmd s ioT cmdT t).2 =
        some (runEvents (protoInit (postSubmit s ioT cmdT)) t).results) ∧
    (s.control_master = true →
      SAction.awaitClosed ∉ (post_cmd s ioT cmdT t).1 ∧
      (post_cmd s ioT cmdT t).2 = none) := by
  constructor <;> intro hcm <;> simp [post_cmd, postSubmit, hcm]

/-- Witness for C4: one regular and one console session. -/
theorem C4_post_cmd_await_closed_witness :
    ((post_cmd (ssh_session_init none false) none none []).1 =
        [SAction.spawn, SAction.awaitClosed] ∧
      (post_cmd (ssh_session_init none false) none none []).2 =
        some (runEvents (protoInit (postSubmit (ssh_session_init none false) none none))
          []).results) ∧
    (SAction.awaitClosed ∉ (post_cmd (ssh_session_init none true) none none []).1 ∧
      (post_cmd (ssh_session_init none true) none none []).2 = none) :=
  ⟨(C4_post_cmd_await_closed (ssh_session_init none false) none none []).1 rfl,
   (C4_post_cmd_await_closed (ssh_session_init none true) none none []).2 rfl⟩

/-! ### rexec synchronous path and run_all_commands -/

inductive PyErr
  | timeoutError
  | invalidStateError
  | nameError
deriving DecidableEq, Repr

/-- The two class-wide / per-node task lists touched by `rexec`. -/
structure NodeTasks where
  rexec_tasks : List Nat
  my_tasks : List Nat
deriving DecidableEq, Repr

/-- `ssh_node.rexec` with `ASYNC=False`: append the scheduled task to
`ssh_node.rexec_tasks` and `self.my_tasks`, then
`run_until_complete(asyncio.wait([this_task], timeout=10))`.  `asyncio.wait`
returns a `(done, pending)` pair when its timeout elapses and raises
nothing, so the `except asyncio.TimeoutError` branch is unreachable; the
`finally` block always runs, removing the task from both lists and then
executing `return this_task.result()`, which raises `InvalidStateError`
when the task has not completed (and would swallow any in-flight exception
anyway, a `return` inside `finally` discarding it). -/
def rexec_sync (st : NodeTasks) (tid : Nat) (completed : Bool) (result : List Char) :
    NodeTasks × Except PyErr (List Char) :=
  let st1 : NodeTasks :=
    { rexec_tasks := st.rexec_tasks ++ [tid], my_tasks := st.my_tasks ++ [tid] }
  let st2 : NodeTasks :=
    { rexec_tasks := st1.rexec_tasks.erase tid, my_tasks := st1.my_tasks.erase tid }
  if completed then (st2, Except.ok result)
  else (st2, Except.error PyErr.invalidStateError)

/-- C2 (behaviour at the failing input): when the bounded scheduling wait
elapses without completion, the task is indeed removed from both lists, but
the failure surfaced to the caller is `InvalidStateError` from reading the
unfinished future's result, not a timeout failure; the completed path
returns the collected output. -/
theorem C2_rexec_schedule_timeout_behaviour :
    rexec_sync ⟨[], []⟩ 7 false ['x'] =
      (⟨[], []⟩, Except.error PyErr.invalidStateError) ∧
    (rexec_sync ⟨[], []⟩ 7 false ['x']).2 ≠ Except.error PyErr.timeoutError ∧
    rexec_sync ⟨[], []⟩ 7 true ['x'] = (⟨[], []⟩, Except.ok ['x']) := by
  refine ⟨rfl, ?_, rfl⟩
  intro h
  simp [rexec_sync] at h

/-- Python truthiness of an optional string argument. -/
def truthyStr : Option String → Bool
  | none => false
  | some s => s.length != 0

inductive BatchAction
  | wait (tasks : List Nat) (timeout : Option Nat)
deriving DecidableEq, Repr

/-- `ssh_node.run_all_commands`: with a nonempty class-wide pending list and
a truthy `text`, the log line formats the global name `time`, which is never
imported, so a `NameError` is raised before any waiting; otherwise the call
runs `asyncio.wait` over the currently pending handles with the given
timeout (awaiting completion or deadline, cancelling nothing), and then
clears the class-wide list regardless of which handles completed.  Result:
remaining pending list, performed actions, raised error. -/
def run_all_commands (tasks : List Nat) (timeout : Option Nat)
    (text stoptext : Option String) :
    List Nat × List BatchAction × Option PyErr :=
  if tasks.isEmpty then (tasks, [], none)
  else if truthyStr text then (tasks, [], some PyErr.nameError)
  else ([], [BatchAction.wait tasks timeout], none)

/-- C6 (behaviour at the failing input): a call with a truthy `text` raises
`NameError` (the logging line references the undefined name `time`) before
waiting or clearing the pending list; with the default `text=None` the call
performs one wait over exactly the pending handles, cancels nothing, and
leaves the pending list empty, also when it was already empty. -/
theorem C6_run_all_commands_clears_list :
    run_all_commands [1, 2] (some 3) (some "go") none =
      ([1, 2], [], some PyErr.nameError) ∧
    run_all_commands [1, 2] (some 3) none none =
      ([], [BatchAction.wait [1, 2] (some 3)], none) ∧
    run_all_commands [] (some 3) none none = ([], [], none) := by
  refine ⟨rfl, rfl, rfl⟩

/-! ### Console open and close across registered nodes -/

/-- One persistent console session as seen by the console fleet operations:
`sshpipe` records whether `connection_made` stored the child-process handle,
`alive` whether the child has not yet exited and been reaped. -/
structure ConsoleSession where
  sshpipe : Bool
  alive : Bool
deriving DecidableEq, Repr

structure CNode where
  ssh_console_session : Option ConsoleSession
deriving DecidableEq, Repr

/-- Fleet of registered nodes plus counters of console child processes
started and terminated. -/
structure Fleet where
  nodes : List CNode
  started : Nat
  terminated : Nat
deriving DecidableEq, Repr

/-- Per-node body of `ssh_node.open_consoles`: only a node without a console
session gets one (whose `post_cmd` spawns the child and whose
`connection_made` stores the pipe). -/
def openNode (n : CNode) : CNode :=
  match n.ssh_console_session with
  | some _ => n
  | none => { ssh_console_session := some { sshpipe := true, alive := true } }

def nodeLacksConsole (n : CNode) : Bool := n.ssh_console_session.isNone

/-- `ssh_node.open_consoles`: start one console per node lacking one and
join on the spawns; one child process is started per new session. -/
def open_consoles (w : Fleet) : Fleet :=
  { nodes := w.nodes.map openNode,
    started := w.started + w.nodes.countP nodeLacksConsole,
    terminated := w.terminated }

/-- Per-node body of `ssh_node.close_consoles`: a node with a console
session schedules `session.close()`, which terminates the child iff the
pipe handle exists; terminating an already reaped child is skipped
(`Popen.send_signal` returns without signalling when the return code is
set), and awaiting *closed* then returns at once.  The node's console
reference is never cleared. -/
def closeNode (n : CNode) : CNode :=
  match n.ssh_console_session with
  | none => n
  | some s =>
    if s.sshpipe then { ssh_console_session := some { s with alive := false } } else n

def nodeKillsOnClose (n : CNode) : Bool :=
  match n.ssh_console_session with
  | none => false
  | some s => s.sshpipe && s.alive

/-- `ssh_node.close_consoles`: schedule a close for every node holding a
console session and join; one live child process is terminated per such
session. -/
def close_consoles (w : Fleet) : Fleet :=
  { nodes := w.nodes.map closeNode,
    started := w.started,
    terminated := w.terminated + w.nodes.countP nodeKillsOnClose }

lemma openNode_openNode (n : CNode) : openNode (openNode n) = openNode n := by
  cases h : n.ssh_console_session with
  | some s => simp [openNode, h]
  | none => simp [openNode, h]

lemma openNode_not_lacking (n : CNode) : nodeLacksConsole (openNode n) = false := by
  cases h : n.ssh_console_session with
  | some s => simp [openNode, nodeLacksConsole, h]
  | none => simp [openNode, nodeLacksConsole, h]

lemma closeNode_closeNode (n : CNode) : closeNode (closeNode n) = closeNode n := by
  cases h : n.ssh_console_session with
  | none => simp [closeNode, h]
  | some s =>
    by_cases hp : s.sshpipe = true <;> simp [closeNode, h, hp]

lemma closeNode_no_kill (n : CNode) : nodeKillsOnClose (closeNode n) = false := by
  cases h : n.ssh_console_session with
  | none => simp [closeNode, nodeKillsOnClose, h]
  | some s =>
    by_cases hp : s.sshpipe = true <;> simp [closeNode, nodeKillsOnClose, h, hp]

lemma countP_map_zero {α : Type} (l : List α) (f : α → α) (p : α → Bool)
    (h : ∀ a, p (f a) = false) : (l.map f).countP p = 0 := by
  rw [List.countP_eq_zero]
  intro a ha
  obtain ⟨b, _, rfl⟩ := List.mem_map.mp ha
  simp [h b]

/-- C7: `open_consoles` and `close_consoles` are idempotent over the set of
registered nodes — a console is started only for each node lacking one and
closed only for each node holding one — and with two registered nodes an
open followed by a close starts exactly two console child processes and
terminates exactly two. -/
theorem C7_console_idempotence :
    (∀ w : Fleet, open_consoles (open_consoles w) = open_consoles w) ∧
    (∀ w : Fleet, close_consoles (close_consoles w) = close_consoles w) ∧
    (close_consoles (open_consoles ⟨[⟨none⟩, ⟨none⟩], 0, 0⟩)).started = 2 ∧
    (close_consoles (open_consoles ⟨[⟨none⟩, ⟨none⟩], 0, 0⟩)).terminated = 2 := by
  refine ⟨?_, ?_, by decide, by decide⟩
  · intro w
    have h1 : (w.nodes.map openNode).map openNode = w.nodes.map openNode := by
      rw [List.map_map]
      exact List.map_congr_left (fun a _ => openNode_openNode a)
    have h2 : (w.nodes.map openNode).countP nodeLacksConsole = 0 :=
      countP_map_zero w.nodes openNode nodeLacksConsole openNode_not_lacking
    simp [open_consoles, h1, h2]
  · intro w
    have h1 : (w.nodes.map closeNode).map closeNode = w.nodes.map closeNode := by
      rw [List.map_map]
      exact List.map_congr_left (fun a _ => closeNode_closeNode a)
    have h2 : (w.nodes.map closeNode).countP nodeKillsOnClose = 0 :=
      countP_map_zero w.nodes closeNode nodeKillsOnClose closeNode_no_kill
    simp [close_consoles, h1, h2]

/-! ### Attribute delegation from session to node -/

inductive PyVal
  | pyNone
  | pyStr (s : String)
  | pyNat (n : Nat)
deriving DecidableEq, Repr

inductive PyLookup
  | val (v : PyVal)
  | attributeError
deriving DecidableEq, Repr

/-- Ordinary Python attribute read on the node object (`ssh_node` defines no
fallback), raising `AttributeError` on a miss. -/
def node_getattr (nodeAttrs : String → Option PyVal) (attr : String) : PyLookup :=
  match nodeAttrs attr with
  | some v => PyLookup.val v
  | none => PyLookup.attributeError

/-- Attribute read on an `ssh_session`: ordinary lookup first; on a miss
Python invokes `ssh_session.__getattr__`, which returns
`getattr(self.node, attr)` when the node reference is truthy and otherwise
falls off the end of the function, yielding `None`. -/
def session_getattr (sessionAttrs : String → Option PyVal)
    (node : Option (String → Option PyVal)) (attr : String) : PyLookup :=
  match sessionAttrs attr with
  | some v => PyLookup.val v
  | none =>
    match node with
    | some nodeAttrs => node_getattr nodeAttrs attr
    | none => PyLookup.val PyVal.pyNone

/-- C9: a read of an attribute not defined on the session itself is
delegated to the owning node when the node reference is set, and returns
`None` instead of raising `AttributeError` when the node reference is
`None`, for every attribute name. -/
theorem C9_getattr_delegation (sa : String → Option PyVal)
    (node : Option (String → Option PyVal)) (na : String → Option PyVal)
    (attr : String) (hmiss : sa attr = none) :
    (node = some na → session_getattr sa node attr = node_getattr na attr) ∧
    (node = none →
      session_getattr sa node attr = PyLookup.val PyVal.pyNone ∧
      session_getattr sa node attr ≠ PyLookup.attributeError) := by
  constructor
  · intro hn
    subst hn
    simp [session_getattr, hmiss]
  · intro hn
    subst hn
    simp [session_getattr, hmiss]

def sessionAttrsEx : String → Option PyVal :=
  fun a => if a = "hostname" then some (PyVal.pyStr "localhost") else none

def nodeAttrsEx : String → Option PyVal :=
  fun a => if a = "device" then some (PyVal.pyStr "eth0") else none

/-- Witness for C9 at a concrete attribute table. -/
theorem C9_getattr_delegation_witness :
    (session_getattr sessionAttrsEx (some nodeAttrsEx) "device" =
      node_getattr nodeAttrsEx "device") ∧
    (session_getattr sessionAttrsEx none "device" = PyLookup.val PyVal.pyNone ∧
      session_getattr sessionAttrsEx none "device" ≠ PyLookup.attributeError) :=
  ⟨(C9_getattr_delegation sessionAttrsEx (some nodeAttrsEx) nodeAttrsEx "device"
      (by decide)).1 rfl,
   (C9_getattr_delegation sessionAttrsEx none nodeAttrsEx "device"
      (by decide)).2 rfl⟩

/-! ### Fresh session state and close -/

inductive CloseAction
  | terminate
  | awaitClosed
deriving DecidableEq, Repr

/-- `ssh_session.close`: terminate the child process and await the *closed*
signal only when a child-process handle exists; otherwise return at once. -/
def session_close (s : Sess) : List CloseAction :=
  if s.sshpipe then [CloseAction.terminate, CloseAction.awaitClosed] else []

/-- C10: a freshly constructed session has *closed* set and *opened* and
*connected* cleared, holds no child-process handle, and `close()` on it
returns immediately, neither terminating anything nor entering the *closed*
wait. -/
theorem C10_fresh_session_close (ct : Option Nat) (cm : Bool) :
    (ssh_session_init ct cm).closed = true ∧
    (ssh_session_init ct cm).opened = false ∧
    (ssh_session_init ct cm).connected = false ∧
    (ssh_session_init ct cm).sshpipe = false ∧
    session_close (ssh_session_init ct cm) = [] :=
  ⟨rfl, rfl, rfl, rfl, rfl⟩

end SshNodes
